import Mathlib

/-!
Shallow embedding of the forge-plugins task-list backend (`src/src/index.ts`).
The source contains two variants of the service:

* the label-keyed variant (`LabelKeyed` namespace): lists are created
  explicitly by `create_task_list` and stored in a global
  `Record<string, TaskList>`; tasks are keyed by caller-supplied labels inside
  `TaskList.tasks : Record<string, Task>`;
* the id-keyed variant (`IdKeyed` namespace): a global
  `Record<string, Task[]>` keyed by `sessionId`; tasks carry a generated `id`.

JavaScript `Record`s with string keys are embedded as association lists that
record insertion order; `Object.values` enumerates canonical array-index keys
first in ascending numeric order, then the remaining string keys in insertion
order, which `objectValues` reproduces.  Time (`new Date().toISOString()`) and
generated UUIDs are passed in as explicit parameters.  Each HTTP handler
becomes a function from the store and the request data to a pair of the typed
response (`Except Err _`) and the store after the call.
-/

namespace TasksPlugin

/-- Typed failure kinds of the handlers, one constructor per error family
(HTTP 400 context / 400 argument / 404 / 403 / 409), each carrying the exact
message string the code puts in the `error` field. -/
inductive Err where
  | missingContext (msg : String)
  | missingArgument (msg : String)
  | notFound (msg : String)
  | forbidden (msg : String)
  | conflict (msg : String)
deriving DecidableEq

deriving instance DecidableEq for Except

/-- The HTTP status code each typed failure is sent with. -/
def Err.statusCode : Err → Nat
  | .missingContext _ => 400
  | .missingArgument _ => 400
  | .notFound _ => 404
  | .forbidden _ => 403
  | .conflict _ => 409

/-- JavaScript truthiness of an optional string argument: present and
non-empty. -/
def truthy : Option String → Bool
  | some s => !(s == "")
  | none => false

/-- `m[k]` on a JavaScript object embedded as an association list. -/
def lookup : List (String × α) → String → Option α
  | [], _ => none
  | p :: ps, k => if p.1 = k then some p.2 else lookup ps k

/-- `m[k] = v` on a JavaScript object: overwrite in place if the key exists
(keeping its position), otherwise append at the end. -/
def setKey : List (String × α) → String → α → List (String × α)
  | [], k, v => [(k, v)]
  | p :: ps, k, v => if p.1 = k then (k, v) :: ps else p :: setKey ps k v

/-- In-place update of the value stored under an existing key
(`obj[k].field = ...` in the source); a no-op if the key is absent. -/
def updKey (f : α → α) : List (String × α) → String → List (String × α)
  | [], _ => []
  | p :: ps, k => if p.1 = k then (p.1, f p.2) :: ps else p :: updKey f ps k

/-- `delete m[k]` on a JavaScript object: removes the entries with that key
(a JavaScript object holds each key at most once). -/
def delKey : List (String × α) → String → List (String × α)
  | [], _ => []
  | p :: ps, k => if p.1 = k then delKey ps k else p :: delKey ps k

/-- Reads a non-empty run of decimal digits, accumulating the value; `none`
as soon as a non-digit appears. -/
def decimalAux : List Char → Nat → Option Nat
  | [], acc => some acc
  | c :: cs, acc =>
    if c.isDigit then decimalAux cs (10 * acc + (c.toNat - 48)) else none

/-- The numeric value of an all-digit string. -/
def decimalValue (s : String) : Option Nat := decimalAux s.data 0

/-- Whether a string is a canonical array-index property key in JavaScript:
the canonical decimal representation of some `n < 2^32 - 1`. -/
def isArrayIndex (s : String) : Bool :=
  match decimalValue s with
  | some n => decide (n < 4294967295) && (toString n == s)
  | none => false

/-- Numeric value of an array-index key. -/
def keyNat (s : String) : Nat := (decimalValue s).getD 0

/-- Insert an entry into a list of entries sorted by ascending numeric key. -/
def insertIdx (p : String × α) : List (String × α) → List (String × α)
  | [] => [p]
  | q :: qs => if keyNat p.1 ≤ keyNat q.1 then p :: q :: qs else q :: insertIdx p qs

/-- Sort entries by ascending numeric key value. -/
def sortIdx : List (String × α) → List (String × α)
  | [] => []
  | p :: ps => insertIdx p (sortIdx ps)

/-- `Object.values(m)`: values of canonical array-index keys first, in
ascending numeric order, then values of all other keys in insertion order. -/
def objectValues (m : List (String × α)) : List α :=
  (sortIdx (m.filter (fun p => isArrayIndex p.1))).map Prod.snd
    ++ (m.filter (fun p => !isArrayIndex p.1)).map Prod.snd

/-- Modelled from the spec: the structured aggregate-completion record
`{allComplete: bool, remaining: sequence of identities}` that §4.2's
`checkAllComplete` is said to return; absent from `src/src/index.ts`, whose
`check_all_tasks_complete` handler sends a bare boolean. -/
structure CheckResult where
  allComplete : Bool
  remaining : List String
deriving DecidableEq

namespace LabelKeyed

/-- `Task` of the label-keyed variant; `status` ranges over the string
literals `"pending"` and `"completed"`. -/
structure Task where
  label : String
  status : String
  createdAt : String
  updatedAt : String
deriving DecidableEq

/-- `TaskList` of the label-keyed variant; `tasks` is keyed by label. -/
structure TaskList where
  id : String
  sessionId : String
  tasks : List (String × Task)
  createdAt : String
deriving DecidableEq

/-- The global in-memory store `taskLists : Record<string, TaskList>`. -/
abbrev Store := List (String × TaskList)

/-- Response bodies of the label-keyed variant.  The handlers construct the
first five shapes; `checkRecord` is the structured aggregate-completion shape
the spec describes, included so that shape is expressible — no handler ever
constructs it. -/
inductive Resp where
  | created (id : String)
  | task (t : Task)
  | tasks (ts : List Task)
  | deleted (success : Bool) (deletedLabel : String)
  | bool (b : Bool)
  | checkRecord (r : CheckResult)
deriving DecidableEq

/-- Whether a response body is a bare boolean. -/
def Resp.isBool : Resp → Bool
  | .bool _ => true
  | _ => false

/-- Whether a response body is the spec's structured aggregate-completion
record. -/
def Resp.isCheckRecord : Resp → Bool
  | .checkRecord _ => true
  | _ => false

/-- `POST /create_task_list`: `newListId` stands for the generated UUID and
`now` for `new Date().toISOString()`. -/
def create_task_list (st : Store) (sessionId newListId now : String) :
    Except Err Resp × Store :=
  if sessionId = "" then (.error (.missingContext "Missing context.sessionId"), st)
  else
    (.ok (.created newListId),
      setKey st newListId
        { id := newListId, sessionId := sessionId, tasks := [], createdAt := now })

/-- `POST /add_task` (label-keyed variant). -/
def add_task (st : Store) (sessionId taskListId label now : String) :
    Except Err Resp × Store :=
  if sessionId = "" then (.error (.missingContext "Missing context.sessionId"), st)
  else if taskListId = "" then (.error (.missingArgument "Missing taskListId"), st)
  else if label = "" then (.error (.missingArgument "Missing label"), st)
  else
    match lookup st taskListId with
    | none => (.error (.notFound ("Task list not found: " ++ taskListId)), st)
    | some l =>
      if l.sessionId ≠ sessionId then
        (.error (.forbidden "Task list belongs to another session"), st)
      else if (lookup l.tasks label).isSome then
        (.error (.conflict ("Task with label \"" ++ label ++ "\" already exists")), st)
      else
        let t : Task := { label := label, status := "pending", createdAt := now, updatedAt := now }
        (.ok (.task t),
          updKey (fun l2 => { l2 with tasks := l2.tasks ++ [(label, t)] }) st taskListId)

/-- `POST /complete_task` (label-keyed variant). -/
def complete_task (st : Store) (sessionId taskListId label now : String) :
    Except Err Resp × Store :=
  if sessionId = "" then (.error (.missingContext "Missing context.sessionId"), st)
  else if taskListId = "" then (.error (.missingArgument "Missing taskListId"), st)
  else if label = "" then (.error (.missingArgument "Missing label"), st)
  else
    match lookup st taskListId with
    | none => (.error (.notFound ("Task list not found: " ++ taskListId)), st)
    | some l =>
      if l.sessionId ≠ sessionId then (.error (.forbidden "Access denied"), st)
      else
        match lookup l.tasks label with
        | none => (.error (.notFound ("Task not found: \"" ++ label ++ "\"")), st)
        | some t =>
          let t2 : Task := { t with status := "completed", updatedAt := now }
          (.ok (.task t2),
            updKey (fun l2 => { l2 with tasks := setKey l2.tasks label t2 }) st taskListId)

/-- `POST /delete_task` (label-keyed variant). -/
def delete_task (st : Store) (sessionId taskListId label : String) :
    Except Err Resp × Store :=
  if sessionId = "" then (.error (.missingContext "Missing context.sessionId"), st)
  else if taskListId = "" then (.error (.missingArgument "Missing taskListId"), st)
  else if label = "" then (.error (.missingArgument "Missing label"), st)
  else
    match lookup st taskListId with
    | none => (.error (.notFound ("Task list not found: " ++ taskListId)), st)
    | some l =>
      if l.sessionId ≠ sessionId then (.error (.forbidden "Access denied"), st)
      else if (lookup l.tasks label).isSome then
        (.ok (.deleted true label),
          updKey (fun l2 => { l2 with tasks := delKey l2.tasks label }) st taskListId)
      else (.error (.notFound ("Task not found: \"" ++ label ++ "\"")), st)

/-- `POST /list_tasks` (label-keyed variant): `Object.values(taskList.tasks)`. -/
def list_tasks (st : Store) (sessionId taskListId : String) :
    Except Err Resp × Store :=
  if sessionId = "" then (.error (.missingContext "Missing context.sessionId"), st)
  else if taskListId = "" then (.error (.missingArgument "Missing taskListId"), st)
  else
    match lookup st taskListId with
    | none => (.error (.notFound ("Task list not found: " ++ taskListId)), st)
    | some l =>
      if l.sessionId ≠ sessionId then (.error (.forbidden "Access denied"), st)
      else (.ok (.tasks (objectValues l.tasks)), st)

/-- `POST /check_all_tasks_complete`: the body answered on success is the bare
boolean `tasksArray.every(t => t.status === 'completed')`. -/
def check_all_tasks_complete (st : Store) (sessionId taskListId : String) :
    Except Err Resp × Store :=
  if sessionId = "" then (.error (.missingContext "Missing context.sessionId"), st)
  else if taskListId = "" then (.error (.missingArgument "Missing taskListId"), st)
  else
    match lookup st taskListId with
    | none => (.error (.notFound ("Task list not found: " ++ taskListId)), st)
    | some l =>
      if l.sessionId ≠ sessionId then (.error (.forbidden "Access denied"), st)
      else (.ok (.bool ((objectValues l.tasks).all (fun t => t.status == "completed"))), st)

/-- One inbound request of the label-keyed variant (UUIDs generated inside a
handler appear as request data). -/
inductive Req where
  | create (newListId : String)
  | add (taskListId label : String)
  | complete (taskListId label : String)
  | del (taskListId label : String)
  | list (taskListId : String)
  | checkAll (taskListId : String)
deriving DecidableEq

/-- The `taskListId` argument a request resolves, if any. -/
def Req.target : Req → Option String
  | .create _ => none
  | .add lid _ => some lid
  | .complete lid _ => some lid
  | .del lid _ => some lid
  | .list lid => some lid
  | .checkAll lid => some lid

/-- The `label` argument of a request, if it has one. -/
def Req.label : Req → Option String
  | .add _ lab => some lab
  | .complete _ lab => some lab
  | .del _ lab => some lab
  | _ => none

/-- Dispatch one label-keyed request to its handler. -/
def step (st : Store) (sessionId : String) (r : Req) (now : String) :
    Except Err Resp × Store :=
  match r with
  | .create newListId => create_task_list st sessionId newListId now
  | .add lid lab => add_task st sessionId lid lab now
  | .complete lid lab => complete_task st sessionId lid lab now
  | .del lid lab => delete_task st sessionId lid lab
  | .list lid => list_tasks st sessionId lid
  | .checkAll lid => check_all_tasks_complete st sessionId lid

end LabelKeyed

namespace IdKeyed

/-- `Task` of the id-keyed variant; `status` is an unconstrained string. -/
structure Task where
  id : String
  description : String
  status : String
  createdAt : String
  updatedAt : String
deriving DecidableEq

/-- The global in-memory store `taskStore : Record<string, Task[]>`, keyed by
session identifier. -/
abbrev Store := List (String × List Task)

/-- Response bodies the id-keyed handlers can send on success. -/
inductive Resp where
  | task (t : Task)
  | tasks (ts : List Task)
  | deleted (success : Bool) (deletedId : String)
deriving DecidableEq

/-- `args.status || 'pending'`: the supplied status when truthy, otherwise the
default `"pending"`. -/
def statusOrDefault (s : Option String) : String :=
  if truthy s then s.getD "" else "pending"

/-- `POST /add_task` (id-keyed variant): `newId` stands for the generated
UUID. -/
def add_task (st : Store) (sessionId description : String) (status : Option String)
    (newId now : String) : Except Err Resp × Store :=
  if sessionId = "" then (.error (.missingContext "Missing context.sessionId"), st)
  else if description = "" then (.error (.missingArgument "Missing args.description"), st)
  else
    let tasks := (lookup st sessionId).getD []
    let t : Task := { id := newId, description := description,
                      status := statusOrDefault status, createdAt := now, updatedAt := now }
    (.ok (.task t), setKey st sessionId (tasks ++ [t]))

/-- The field update performed by `update_task` on the found task: each field
is overwritten only when the corresponding argument is truthy, then
`updatedAt` is refreshed. -/
def applyFields (d s : Option String) (now : String) (t : Task) : Task :=
  let t1 := if truthy d then { t with description := d.getD "" } else t
  let t2 := if truthy s then { t1 with status := s.getD "" } else t1
  { t2 with updatedAt := now }

/-- `tasks.findIndex(...)` followed by in-place mutation of the found element:
returns the updated task together with the updated array, or `none` when no
element matches. -/
def updateFirst (p : Task → Bool) (f : Task → Task) : List Task → Option (Task × List Task)
  | [] => none
  | t :: ts =>
    if p t then some (f t, f t :: ts)
    else (updateFirst p f ts).map (fun r => (r.1, t :: r.2))

/-- `POST /update_task` (id-keyed variant). -/
def update_task (st : Store) (sessionId taskId : String) (description status : Option String)
    (now : String) : Except Err Resp × Store :=
  if sessionId = "" then (.error (.missingContext "Missing context.sessionId"), st)
  else if taskId = "" then (.error (.missingArgument "Missing args.taskId"), st)
  else
    match lookup st sessionId with
    | none => (.error (.notFound "No tasks found for this session."), st)
    | some tasks =>
      match updateFirst (fun t => t.id == taskId) (applyFields description status now) tasks with
      | none => (.error (.notFound ("Task not found: " ++ taskId)), st)
      | some r => (.ok (.task r.1), setKey st sessionId r.2)

/-- `POST /list_tasks` (id-keyed variant). -/
def list_tasks (st : Store) (sessionId : String) : Except Err Resp × Store :=
  if sessionId = "" then (.error (.missingContext "Missing context.sessionId"), st)
  else (.ok (.tasks ((lookup st sessionId).getD [])), st)

/-- `POST /delete_task` (id-keyed variant): note that the filtered array is
written back to the store before the length comparison that decides between
404 and success. -/
def delete_task (st : Store) (sessionId taskId : String) : Except Err Resp × Store :=
  if sessionId = "" then (.error (.missingContext "Missing context.sessionId"), st)
  else if taskId = "" then (.error (.missingArgument "Missing args.taskId"), st)
  else
    match lookup st sessionId with
    | none => (.error (.notFound "No tasks found for this session."), st)
    | some tasks =>
      let filtered := tasks.filter (fun t => !(t.id == taskId))
      let st2 := setKey st sessionId filtered
      if filtered.length = tasks.length then
        (.error (.notFound ("Task not found: " ++ taskId)), st2)
      else (.ok (.deleted true taskId), st2)

/-- One inbound request of the id-keyed variant. -/
inductive Req where
  | add (description : String) (status : Option String) (newId : String)
  | update (taskId : String) (description status : Option String)
  | del (taskId : String)
  | list
deriving DecidableEq

/-- Dispatch one id-keyed request to its handler. -/
def step (st : Store) (sessionId : String) (r : Req) (now : String) :
    Except Err Resp × Store :=
  match r with
  | .add desc status newId => add_task st sessionId desc status newId now
  | .update tid desc status => update_task st sessionId tid desc status now
  | .del tid => delete_task st sessionId tid
  | .list => list_tasks st sessionId

end IdKeyed

/-- Modelled from the spec: `remaining` holds the identity of every task whose
status is not `completed`, in insertion order; `allComplete` holds iff
`remaining` is empty. -/
def checkAllCompleteSpec (l : LabelKeyed.TaskList) : CheckResult :=
  let remaining := (l.tasks.filter (fun p => !(p.2.status == "completed"))).map Prod.fst
  { allComplete := remaining.isEmpty, remaining := remaining }

/-! ### Association-list lemmas -/

theorem lookup_setKey_self (m : List (String × α)) (k : String) (v : α) :
    lookup (setKey m k v) k = some v := by
  induction m with
  | nil => simp [setKey, lookup]
  | cons p ps ih =>
    by_cases h : p.1 = k <;> simp [setKey, lookup, h, ih]

theorem lookup_setKey_ne (m : List (String × α)) (k k' : String) (v : α) (h : k' ≠ k) :
    lookup (setKey m k v) k' = lookup m k' := by
  have h' : ¬k = k' := fun e => h e.symm
  induction m with
  | nil => simp [setKey, lookup, h']
  | cons p ps ih =>
    by_cases hp : p.1 = k
    · simp [setKey, lookup, hp, h']
    · simp only [setKey, if_neg hp, lookup]
      by_cases hp' : p.1 = k' <;> simp [hp', ih]

theorem setKey_of_lookup {m : List (String × α)} {k : String} {v : α}
    (h : lookup m k = some v) : setKey m k v = m := by
  induction m with
  | nil => simp [lookup] at h
  | cons p ps ih =>
    obtain ⟨a, b⟩ := p
    by_cases hp : a = k
    · subst hp
      simp [lookup] at h
      subst h
      simp [setKey]
    · simp only [lookup, if_neg hp] at h
      simp [setKey, hp, ih h]

theorem lookup_updKey (f : α → α) (m : List (String × α)) (k : String) :
    lookup (updKey f m k) k = (lookup m k).map f := by
  induction m with
  | nil => simp [updKey, lookup]
  | cons p ps ih =>
    by_cases h : p.1 = k <;> simp [updKey, lookup, h, ih]

theorem lookup_updKey_ne (f : α → α) (m : List (String × α)) (k k' : String) (h : k' ≠ k) :
    lookup (updKey f m k) k' = lookup m k' := by
  have h' : ¬k = k' := fun e => h e.symm
  induction m with
  | nil => simp [updKey]
  | cons p ps ih =>
    by_cases hp : p.1 = k
    · simp [updKey, lookup, hp, h']
    · simp only [updKey, if_neg hp, lookup]
      by_cases hp' : p.1 = k' <;> simp [hp', ih]

theorem setKey_setKey (m : List (String × α)) (k : String) (v v' : α) :
    setKey (setKey m k v) k v' = setKey m k v' := by
  induction m with
  | nil => simp [setKey]
  | cons p ps ih =>
    by_cases h : p.1 = k <;> simp [setKey, h, ih]

theorem updKey_updKey (f g : α → α) (m : List (String × α)) (k : String) :
    updKey g (updKey f m k) k = updKey (fun a => g (f a)) m k := by
  induction m with
  | nil => simp [updKey]
  | cons p ps ih =>
    by_cases h : p.1 = k <;> simp [updKey, h, ih]

theorem updKey_congr {f g : α → α} (m : List (String × α)) (k : String)
    (h : ∀ a, f a = g a) : updKey f m k = updKey g m k := by
  induction m with
  | nil => simp [updKey]
  | cons p ps ih =>
    by_cases hp : p.1 = k <;> simp [updKey, hp, ih, h]

theorem lookup_delKey_self (m : List (String × α)) (k : String) :
    lookup (delKey m k) k = none := by
  induction m with
  | nil => simp [delKey, lookup]
  | cons p ps ih =>
    by_cases h : p.1 = k <;> simp [delKey, lookup, h, ih]

theorem mem_delKey {m : List (String × α)} {k : String} {p : String × α}
    (h : p ∈ delKey m k) : p ∈ m ∧ p.1 ≠ k := by
  induction m with
  | nil => simp [delKey] at h
  | cons q qs ih =>
    by_cases hq : q.1 = k
    · simp only [delKey, if_pos hq] at h
      exact ⟨List.mem_cons_of_mem _ (ih h).1, (ih h).2⟩
    · simp only [delKey, if_neg hq, List.mem_cons] at h
      rcases h with h | h
      · subst h
        exact ⟨List.mem_cons_self _ _, hq⟩
      · exact ⟨List.mem_cons_of_mem _ (ih h).1, (ih h).2⟩

theorem lookup_delKey_ne (m : List (String × α)) (k k' : String) (h : k' ≠ k) :
    lookup (delKey m k) k' = lookup m k' := by
  have h' : ¬k = k' := fun e => h e.symm
  induction m with
  | nil => simp [delKey]
  | cons p ps ih =>
    by_cases hp : p.1 = k
    · have hp' : ¬p.1 = k' := fun e => h (by rw [← e, hp])
      simp [delKey, lookup, hp, hp', h', ih]
    · simp only [delKey, if_neg hp, lookup]
      by_cases hp' : p.1 = k' <;> simp [hp', ih]

theorem lookup_append_none {m : List (String × α)} {k : String}
    (h : lookup m k = none) (m2 : List (String × α)) :
    lookup (m ++ m2) k = lookup m2 k := by
  induction m with
  | nil => simp
  | cons p ps ih =>
    by_cases hp : p.1 = k
    · simp [lookup, hp] at h
    · simp only [lookup, if_neg hp] at h
      simpa [lookup, hp] using ih h

theorem isEmpty_map (f : α → β) (l : List α) : (l.map f).isEmpty = l.isEmpty := by
  cases l <;> rfl

theorem lookup_append_some {m : List (String × α)} {k : String} {v : α}
    (h : lookup m k = some v) (m2 : List (String × α)) :
    lookup (m ++ m2) k = some v := by
  induction m with
  | nil => simp [lookup] at h
  | cons p ps ih =>
    by_cases hp : p.1 = k
    · simpa [lookup, hp] using h
    · simp only [lookup, if_neg hp] at h
      simpa [lookup, hp] using ih h

theorem filter_of_length_eq {l : List α} {p : α → Bool}
    (h : (l.filter p).length = l.length) : l.filter p = l := by
  induction l with
  | nil => rfl
  | cons a as ih =>
    by_cases hp : p a
    · simp only [List.filter_cons, if_pos hp, List.length_cons, Nat.succ.injEq] at h
      simp [List.filter_cons, hp, ih h]
    · exfalso
      simp only [List.filter_cons, if_neg hp, List.length_cons] at h
      have := List.length_filter_le p as
      omega

/-! ### `Object.values` ordering lemmas -/

theorem insertIdx_perm (p : String × α) (l : List (String × α)) :
    (insertIdx p l).Perm (p :: l) := by
  induction l with
  | nil => simp [insertIdx]
  | cons q qs ih =>
    by_cases h : keyNat p.1 ≤ keyNat q.1
    · simp [insertIdx, h]
    · simp only [insertIdx, if_neg h]
      exact (ih.cons q).trans (List.Perm.swap p q qs)

theorem sortIdx_perm (l : List (String × α)) : (sortIdx l).Perm l := by
  induction l with
  | nil => simp [sortIdx]
  | cons p ps ih => exact (insertIdx_perm p (sortIdx ps)).trans (ih.cons p)

theorem objectValues_perm (m : List (String × α)) :
    (objectValues m).Perm (m.map Prod.snd) := by
  have h1 : (sortIdx (m.filter (fun p => isArrayIndex p.1))).Perm
      (m.filter (fun p => isArrayIndex p.1)) := sortIdx_perm _
  have h2 : ((m.filter (fun p => isArrayIndex p.1)) ++
      (m.filter (fun p => !isArrayIndex p.1))).Perm m :=
    List.filter_append_perm _ m
  have step1 : (objectValues m).Perm
      (((m.filter (fun p => isArrayIndex p.1)) ++
        (m.filter (fun p => !isArrayIndex p.1))).map Prod.snd) := by
    rw [List.map_append]
    exact (h1.map Prod.snd).append_right _
  exact step1.trans (h2.map Prod.snd)

theorem mem_objectValues {m : List (String × α)} {x : α} :
    x ∈ objectValues m ↔ x ∈ m.map Prod.snd :=
  (objectValues_perm m).mem_iff

theorem objectValues_of_no_index {m : List (String × α)}
    (h : ∀ p ∈ m, isArrayIndex p.1 = false) :
    objectValues m = m.map Prod.snd := by
  have h1 : m.filter (fun p => isArrayIndex p.1) = [] := by
    rw [List.filter_eq_nil_iff]
    intro p hmem
    simp [h p hmem]
  have h2 : m.filter (fun p => !isArrayIndex p.1) = m := by
    rw [List.filter_eq_self]
    intro p hmem
    simp [h p hmem]
  simp [objectValues, h1, h2, sortIdx]

theorem perm_all {l1 l2 : List α} (h : l1.Perm l2) (q : α → Bool) :
    l1.all q = l2.all q := by
  cases e1 : l1.all q <;> cases e2 : l2.all q <;> try rfl
  · exfalso
    rw [List.all_eq_true] at e2
    have : l1.all q = true := List.all_eq_true.mpr fun x hx => e2 x (h.mem_iff.mp hx)
    rw [e1] at this
    exact Bool.false_ne_true this
  · exfalso
    rw [List.all_eq_true] at e1
    have : l2.all q = true := List.all_eq_true.mpr fun x hx => e1 x (h.mem_iff.mpr hx)
    rw [e2] at this
    exact Bool.false_ne_true this

theorem all_map_snd_eq_filter_isEmpty (q : β → Bool) (l : List (α × β)) :
    (l.map Prod.snd).all q = (l.filter (fun p => !q p.2)).isEmpty := by
  induction l with
  | nil => rfl
  | cons p ps ih =>
    by_cases hq : q p.2 <;> simp [List.filter_cons, hq, ih]

/-! ### `updateFirst` lemmas -/

theorem updateFirst_eq_none {p : IdKeyed.Task → Bool} {f : IdKeyed.Task → IdKeyed.Task}
    {l : List IdKeyed.Task} (h : ∀ t ∈ l, p t = false) :
    IdKeyed.updateFirst p f l = none := by
  induction l with
  | nil => rfl
  | cons t ts ih =>
    simp only [IdKeyed.updateFirst, h t (List.mem_cons_self ..)]
    simp [ih fun x hx => h x (List.mem_cons_of_mem _ hx)]

theorem updateFirst_append {p : IdKeyed.Task → Bool} {f : IdKeyed.Task → IdKeyed.Task}
    {pre post : List IdKeyed.Task} {t : IdKeyed.Task}
    (hpre : ∀ x ∈ pre, p x = false) (ht : p t = true) :
    IdKeyed.updateFirst p f (pre ++ t :: post) = some (f t, pre ++ f t :: post) := by
  induction pre with
  | nil => simp [IdKeyed.updateFirst, ht]
  | cons x xs ih =>
    simp only [List.cons_append, IdKeyed.updateFirst, hpre x (List.mem_cons_self ..)]
    simp [ih fun y hy => hpre y (List.mem_cons_of_mem _ hy)]

/-! ### Handler case characterizations -/

namespace LabelKeyed

theorem create_task_list_cases (st : Store) (sessionId newListId now : String) :
    ((create_task_list st sessionId newListId now).2 = st ∧
      ∃ e, (create_task_list st sessionId newListId now).1 = .error e) ∨
    ((create_task_list st sessionId newListId now).1 = .ok (.created newListId) ∧
      (create_task_list st sessionId newListId now).2 =
        setKey st newListId
          { id := newListId, sessionId := sessionId, tasks := [], createdAt := now }) := by
  unfold create_task_list
  split
  · exact Or.inl ⟨rfl, _, rfl⟩
  · exact Or.inr ⟨rfl, rfl⟩

theorem add_task_cases (st : Store) (sessionId taskListId label now : String) :
    ((add_task st sessionId taskListId label now).2 = st ∧
      ∃ e, (add_task st sessionId taskListId label now).1 = .error e) ∨
    (∃ l0, lookup st taskListId = some l0 ∧ lookup l0.tasks label = none ∧
      (add_task st sessionId taskListId label now).1 =
        .ok (.task ⟨label, "pending", now, now⟩) ∧
      (add_task st sessionId taskListId label now).2 =
        updKey
          (fun l2 =>
            { l2 with
              tasks := l2.tasks ++
                [(label, ⟨label, "pending", now, now⟩)] })
          st taskListId) := by
  unfold add_task
  repeat' split
  · exact Or.inl ⟨rfl, _, rfl⟩
  · exact Or.inl ⟨rfl, _, rfl⟩
  · exact Or.inl ⟨rfl, _, rfl⟩
  · exact Or.inl ⟨rfl, _, rfl⟩
  · exact Or.inl ⟨rfl, _, rfl⟩
  · exact Or.inl ⟨rfl, _, rfl⟩
  · rename_i x1 l0 heq hne hnotsome
    have hnone : lookup l0.tasks label = none := by
      cases hx : lookup l0.tasks label
      · rfl
      · rw [hx] at hnotsome
        simp at hnotsome
    exact Or.inr ⟨l0, heq, hnone, rfl, rfl⟩

theorem complete_task_cases (st : Store) (sessionId taskListId label now : String) :
    ((complete_task st sessionId taskListId label now).2 = st ∧
      ∃ e, (complete_task st sessionId taskListId label now).1 = .error e) ∨
    (∃ l0 t0, lookup st taskListId = some l0 ∧ lookup l0.tasks label = some t0 ∧
      (complete_task st sessionId taskListId label now).1 =
        .ok (.task ⟨t0.label, "completed", t0.createdAt, now⟩) ∧
      (complete_task st sessionId taskListId label now).2 =
        updKey
          (fun l2 =>
            { l2 with
              tasks := setKey l2.tasks label ⟨t0.label, "completed", t0.createdAt, now⟩ })
          st taskListId) := by
  unfold complete_task
  repeat' split
  · exact Or.inl ⟨rfl, _, rfl⟩
  · exact Or.inl ⟨rfl, _, rfl⟩
  · exact Or.inl ⟨rfl, _, rfl⟩
  · exact Or.inl ⟨rfl, _, rfl⟩
  · exact Or.inl ⟨rfl, _, rfl⟩
  · exact Or.inl ⟨rfl, _, rfl⟩
  · rename_i x1 l0 heq1 hne x2 t0 heq2
    exact Or.inr ⟨l0, t0, heq1, heq2, rfl, rfl⟩

theorem delete_task_cases (st : Store) (sessionId taskListId label : String) :
    ((delete_task st sessionId taskListId label).2 = st ∧
      ∃ e, (delete_task st sessionId taskListId label).1 = .error e) ∨
    ((delete_task st sessionId taskListId label).1 = .ok (.deleted true label) ∧
      (delete_task st sessionId taskListId label).2 =
        updKey (fun l2 => { l2 with tasks := delKey l2.tasks label }) st taskListId) := by
  unfold delete_task
  repeat' split
  · exact Or.inl ⟨rfl, _, rfl⟩
  · exact Or.inl ⟨rfl, _, rfl⟩
  · exact Or.inl ⟨rfl, _, rfl⟩
  · exact Or.inl ⟨rfl, _, rfl⟩
  · exact Or.inl ⟨rfl, _, rfl⟩
  · exact Or.inr ⟨rfl, rfl⟩
  · exact Or.inl ⟨rfl, _, rfl⟩

theorem list_tasks_snd (st : Store) (sessionId taskListId : String) :
    (list_tasks st sessionId taskListId).2 = st := by
  unfold list_tasks
  repeat' split
  all_goals rfl

theorem check_all_tasks_complete_snd (st : Store) (sessionId taskListId : String) :
    (check_all_tasks_complete st sessionId taskListId).2 = st := by
  unfold check_all_tasks_complete
  repeat' split
  all_goals rfl

theorem step_error {st : Store} {sessionId : String} {r : Req} {now : String} {e : Err}
    (h : (step st sessionId r now).1 = .error e) : (step st sessionId r now).2 = st := by
  cases r with
  | create newListId =>
    rcases create_task_list_cases st sessionId newListId now with ⟨h2, _⟩ | ⟨h1, _⟩
    · exact h2
    · rw [step] at h
      rw [h] at h1
      exact absurd h1 (by simp)
  | add lid lab =>
    rcases add_task_cases st sessionId lid lab now with ⟨h2, _⟩ | ⟨_, _, _, h1, _⟩
    · exact h2
    · rw [step] at h
      rw [h] at h1
      exact absurd h1 (by simp)
  | complete lid lab =>
    rcases complete_task_cases st sessionId lid lab now with ⟨h2, _⟩ | ⟨_, _, _, _, h1, _⟩
    · exact h2
    · rw [step] at h
      rw [h] at h1
      exact absurd h1 (by simp)
  | del lid lab =>
    rcases delete_task_cases st sessionId lid lab with ⟨h2, _⟩ | ⟨h1, _⟩
    · exact h2
    · rw [step] at h
      rw [h] at h1
      exact absurd h1 (by simp)
  | list lid => exact list_tasks_snd st sessionId lid
  | checkAll lid => exact check_all_tasks_complete_snd st sessionId lid

end LabelKeyed

namespace IdKeyed

theorem add_task_never_fails (st : Store) (sessionId description : String)
    (status : Option String) (newId now : String) :
    ((add_task st sessionId description status newId now).2 = st ∧
      ∃ e, (add_task st sessionId description status newId now).1 = .error e) ∨
    ((add_task st sessionId description status newId now).1 =
        .ok (.task ⟨newId, description, statusOrDefault status, now, now⟩) ∧
      (add_task st sessionId description status newId now).2 =
        setKey st sessionId
          (((lookup st sessionId).getD []) ++
            [⟨newId, description, statusOrDefault status, now, now⟩])) := by
  unfold add_task
  repeat' split
  · exact Or.inl ⟨rfl, _, rfl⟩
  · exact Or.inl ⟨rfl, _, rfl⟩
  · exact Or.inr ⟨rfl, rfl⟩

theorem update_task_cases (st : Store) (sessionId taskId : String)
    (description status : Option String) (now : String) :
    ((update_task st sessionId taskId description status now).2 = st ∧
      ∃ e, (update_task st sessionId taskId description status now).1 = .error e) ∨
    (∃ tasks r, lookup st sessionId = some tasks ∧
      updateFirst (fun t => t.id == taskId) (applyFields description status now) tasks =
        some r ∧
      (update_task st sessionId taskId description status now).1 = .ok (.task r.1) ∧
      (update_task st sessionId taskId description status now).2 =
        setKey st sessionId r.2) := by
  unfold update_task
  repeat' split
  · exact Or.inl ⟨rfl, _, rfl⟩
  · exact Or.inl ⟨rfl, _, rfl⟩
  · exact Or.inl ⟨rfl, _, rfl⟩
  · exact Or.inl ⟨rfl, _, rfl⟩
  · rename_i hs ht x1 tasks heq1 x2 r heq2
    exact Or.inr ⟨tasks, r, heq1, heq2, rfl, rfl⟩

theorem delete_task_branches (st : Store) (sessionId taskId : String) :
    ((delete_task st sessionId taskId).2 = st ∧
      ∃ e, (delete_task st sessionId taskId).1 = .error e) ∨
    (∃ tasks, lookup st sessionId = some tasks ∧
      (delete_task st sessionId taskId).2 =
        setKey st sessionId (tasks.filter (fun t => !(t.id == taskId))) ∧
      (((tasks.filter (fun t => !(t.id == taskId))).length = tasks.length ∧
         (delete_task st sessionId taskId).1 =
           .error (.notFound ("Task not found: " ++ taskId))) ∨
       ((tasks.filter (fun t => !(t.id == taskId))).length ≠ tasks.length ∧
         (delete_task st sessionId taskId).1 = .ok (.deleted true taskId)))) := by
  unfold delete_task
  repeat' split
  · exact Or.inl ⟨rfl, _, rfl⟩
  · exact Or.inl ⟨rfl, _, rfl⟩
  · exact Or.inl ⟨rfl, _, rfl⟩
  · rename_i x1 tasks heq
    dsimp only
    split
    · rename_i hlen
      exact Or.inr ⟨tasks, heq, rfl, Or.inl ⟨hlen, rfl⟩⟩
    · rename_i hlen
      exact Or.inr ⟨tasks, heq, rfl, Or.inr ⟨hlen, rfl⟩⟩

theorem update_task_error {st : Store} {sessionId taskId : String}
    {description status : Option String} {now : String} {e : Err}
    (h : (update_task st sessionId taskId description status now).1 = .error e) :
    (update_task st sessionId taskId description status now).2 = st := by
  rcases update_task_cases st sessionId taskId description status now with
    ⟨h2, _⟩ | ⟨_, _, _, _, h1, _⟩
  · exact h2
  · rw [h] at h1
    exact absurd h1 (by simp)

theorem delete_task_error {st : Store} {sessionId taskId : String} {e : Err}
    (h : (delete_task st sessionId taskId).1 = .error e) :
    (delete_task st sessionId taskId).2 = st := by
  rcases delete_task_branches st sessionId taskId with
    ⟨h2, _⟩ | ⟨tasks, heq, h2, ⟨hlen, _⟩ | ⟨_, h1⟩⟩
  · exact h2
  · rw [h2, filter_of_length_eq hlen]
    exact setKey_of_lookup heq
  · rw [h] at h1
    exact absurd h1 (by simp)

theorem list_tasks_state (st : Store) (sessionId : String) :
    (list_tasks st sessionId).2 = st := by
  unfold list_tasks
  repeat' split
  all_goals rfl

theorem step_error_state {st : Store} {sessionId : String} {r : Req} {now : String} {e : Err}
    (h : (step st sessionId r now).1 = .error e) : (step st sessionId r now).2 = st := by
  cases r with
  | add desc status newId =>
    rcases add_task_never_fails st sessionId desc status newId now with ⟨h2, _⟩ | ⟨h1, _⟩
    · exact h2
    · rw [step] at h
      rw [h] at h1
      exact absurd h1 (by simp)
  | update tid desc status => exact update_task_error h
  | del tid => exact delete_task_error h
  | list => exact list_tasks_state st sessionId

end IdKeyed

/-! ### Claim theorems -/

/-- C4: whenever any operation of either variant returns a typed failure, the
store is left unchanged; in particular `add_task` with a label already present
in the target list fails with `Conflict` and leaves the store — hence the
existing task and the list's timestamps — unchanged. -/
theorem C4_failure_atomicity :
    (∀ (st : LabelKeyed.Store) (sessionId : String) (r : LabelKeyed.Req) (now : String)
        (e : Err), (LabelKeyed.step st sessionId r now).1 = .error e →
        (LabelKeyed.step st sessionId r now).2 = st) ∧
    (∀ (st : IdKeyed.Store) (sessionId : String) (r : IdKeyed.Req) (now : String)
        (e : Err), (IdKeyed.step st sessionId r now).1 = .error e →
        (IdKeyed.step st sessionId r now).2 = st) ∧
    (∀ (st : LabelKeyed.Store) (sessionId taskListId label now : String)
        (l : LabelKeyed.TaskList) (t : LabelKeyed.Task),
        sessionId ≠ "" → taskListId ≠ "" → label ≠ "" →
        lookup st taskListId = some l → l.sessionId = sessionId →
        lookup l.tasks label = some t →
        LabelKeyed.add_task st sessionId taskListId label now =
          (.error (.conflict ("Task with label \"" ++ label ++ "\" already exists")), st)) :=
  ⟨fun _ _ _ _ _ h => LabelKeyed.step_error h,
   fun _ _ _ _ _ h => IdKeyed.step_error_state h,
   fun st sid lid lab now l t hs hlid hlab hlk hsess ht => by
     simp [LabelKeyed.add_task, hs, hlid, hlab, hlk, hsess, ht]⟩

/-- Witness for C4 at a concrete failing input: `add_task` against an absent
list leaves the empty store empty. -/
theorem C4_failure_atomicity_witness :
    (LabelKeyed.step [] "s" (.add "L" "a") "t0").2 = ([] : LabelKeyed.Store) :=
  C4_failure_atomicity.1 [] "s" (.add "L" "a") "t0"
    (.notFound ("Task list not found: " ++ "L")) (by decide)

/-- C1: in the label-keyed variant every operation that resolves a list
fails with `NotFound` when the list is absent and with `Forbidden` — leaving
the store unchanged and returning no list data — when the list exists but
belongs to another session; the two failure kinds are distinguishable. -/
theorem C1_ownership_isolation :
    ∀ (st : LabelKeyed.Store) (sessionId : String) (r : LabelKeyed.Req) (now lid : String),
      sessionId ≠ "" → r.target = some lid → lid ≠ "" →
      (∀ lab, r.label = some lab → lab ≠ "") →
      ((lookup st lid = none →
         LabelKeyed.step st sessionId r now =
           (.error (.notFound ("Task list not found: " ++ lid)), st)) ∧
       (∀ l, lookup st lid = some l → l.sessionId ≠ sessionId →
         (∃ m, (LabelKeyed.step st sessionId r now).1 = .error (.forbidden m)) ∧
         (LabelKeyed.step st sessionId r now).2 = st) ∧
       (∀ m1 m2, Err.forbidden m1 ≠ Err.notFound m2)) := by
  intro st sid r now lid hs htgt hlid hlabs
  cases r with
  | create nid => simp [LabelKeyed.Req.target] at htgt
  | add lid0 lab =>
    simp only [LabelKeyed.Req.target, Option.some.injEq] at htgt
    subst htgt
    have hlab : lab ≠ "" := hlabs lab rfl
    refine ⟨?_, ?_, ?_⟩
    · intro hnone
      simp [LabelKeyed.step, LabelKeyed.add_task, hs, hlid, hlab, hnone]
    · intro l hl hne
      refine ⟨⟨"Task list belongs to another session", ?_⟩, ?_⟩ <;>
        simp [LabelKeyed.step, LabelKeyed.add_task, hs, hlid, hlab, hl, hne]
    · intro m1 m2
      simp
  | complete lid0 lab =>
    simp only [LabelKeyed.Req.target, Option.some.injEq] at htgt
    subst htgt
    have hlab : lab ≠ "" := hlabs lab rfl
    refine ⟨?_, ?_, ?_⟩
    · intro hnone
      simp [LabelKeyed.step, LabelKeyed.complete_task, hs, hlid, hlab, hnone]
    · intro l hl hne
      refine ⟨⟨"Access denied", ?_⟩, ?_⟩ <;>
        simp [LabelKeyed.step, LabelKeyed.complete_task, hs, hlid, hlab, hl, hne]
    · intro m1 m2
      simp
  | del lid0 lab =>
    simp only [LabelKeyed.Req.target, Option.some.injEq] at htgt
    subst htgt
    have hlab : lab ≠ "" := hlabs lab rfl
    refine ⟨?_, ?_, ?_⟩
    · intro hnone
      simp [LabelKeyed.step, LabelKeyed.delete_task, hs, hlid, hlab, hnone]
    · intro l hl hne
      refine ⟨⟨"Access denied", ?_⟩, ?_⟩ <;>
        simp [LabelKeyed.step, LabelKeyed.delete_task, hs, hlid, hlab, hl, hne]
    · intro m1 m2
      simp
  | list lid0 =>
    simp only [LabelKeyed.Req.target, Option.some.injEq] at htgt
    subst htgt
    refine ⟨?_, ?_, ?_⟩
    · intro hnone
      simp [LabelKeyed.step, LabelKeyed.list_tasks, hs, hlid, hnone]
    · intro l hl hne
      refine ⟨⟨"Access denied", ?_⟩, ?_⟩ <;>
        simp [LabelKeyed.step, LabelKeyed.list_tasks, hs, hlid, hl, hne]
    · intro m1 m2
      simp
  | checkAll lid0 =>
    simp only [LabelKeyed.Req.target, Option.some.injEq] at htgt
    subst htgt
    refine ⟨?_, ?_, ?_⟩
    · intro hnone
      simp [LabelKeyed.step, LabelKeyed.check_all_tasks_complete, hs, hlid, hnone]
    · intro l hl hne
      refine ⟨⟨"Access denied", ?_⟩, ?_⟩ <;>
        simp [LabelKeyed.step, LabelKeyed.check_all_tasks_complete, hs, hlid, hl, hne]
    · intro m1 m2
      simp

/-- Witness for C1: a list owned by session `abc`, addressed from session
`xyz`, answers `Forbidden` and the store is unchanged. -/
theorem C1_ownership_isolation_witness :
    (∃ m, (LabelKeyed.step [("L", ⟨"L", "abc", [], "t0"⟩)] "xyz"
        (.list "L") "t1").1 = .error (.forbidden m)) ∧
    (LabelKeyed.step [("L", ⟨"L", "abc", [], "t0"⟩)] "xyz" (.list "L") "t1").2 =
      [("L", ⟨"L", "abc", [], "t0"⟩)] :=
  (C1_ownership_isolation [("L", ⟨"L", "abc", [], "t0"⟩)] "xyz" (.list "L") "t1" "L"
      (by decide) rfl (by decide) (fun lab h => nomatch h)).2.1
    ⟨"L", "abc", [], "t0"⟩ (by decide) (by decide)

/-- C2 counterexample: the id-keyed `add_task` accepts a `status` argument
(`args.status || 'pending'`), so a task can be created with status
`"completed"`, not `"pending"`. -/
theorem C2_counterexample :
    (IdKeyed.add_task [] "abc" "write tests" (some "completed") "T1" "t0").1 =
      Except.ok (IdKeyed.Resp.task
        ⟨"T1", "write tests", "completed", "t0", "t0"⟩) ∧
    lookup (IdKeyed.add_task [] "abc" "write tests" (some "completed") "T1" "t0").2 "abc" =
      some [⟨"T1", "write tests", "completed", "t0", "t0"⟩] ∧
    ("completed" : String) ≠ "pending" := by
  refine ⟨rfl, rfl, by decide⟩

/-- C2 (amended): the label-keyed `add_task` always creates the task with
status `"pending"` and both timestamps set to `now`; the id-keyed `add_task`
uses `"pending"` only as a default — when the `status` argument is absent or
empty — and otherwise stores the caller-supplied status verbatim. -/
theorem C2_add_task_initial_status :
    (∀ (st : LabelKeyed.Store) (sessionId taskListId label now : String)
        (l : LabelKeyed.TaskList),
      sessionId ≠ "" → taskListId ≠ "" → label ≠ "" →
      lookup st taskListId = some l → l.sessionId = sessionId →
      lookup l.tasks label = none →
      (LabelKeyed.add_task st sessionId taskListId label now).1 =
        .ok (.task ⟨label, "pending", now, now⟩) ∧
      ∃ l2, lookup (LabelKeyed.add_task st sessionId taskListId label now).2 taskListId =
          some l2 ∧
        lookup l2.tasks label = some ⟨label, "pending", now, now⟩) ∧
    (∀ (st : IdKeyed.Store) (sessionId description : String) (status : Option String)
        (newId now : String),
      sessionId ≠ "" → description ≠ "" →
      (IdKeyed.add_task st sessionId description status newId now).1 =
        .ok (.task ⟨newId, description, IdKeyed.statusOrDefault status, now, now⟩) ∧
      (truthy status = false → IdKeyed.statusOrDefault status = "pending") ∧
      (∀ v, v ≠ "" → IdKeyed.statusOrDefault (some v) = v)) := by
  constructor
  · intro st sid lid lab now l hs hlid hlab hlk hsess hnone
    have hres1 : (LabelKeyed.add_task st sid lid lab now).1 =
        .ok (.task ⟨lab, "pending", now, now⟩) := by
      simp [LabelKeyed.add_task, hs, hlid, hlab, hlk, hsess, hnone]
    refine ⟨hres1, ?_⟩
    rcases LabelKeyed.add_task_cases st sid lid lab now with
      ⟨_, e, he⟩ | ⟨l0, hl0, hn0, hok, hsnd⟩
    · rw [hres1] at he
      exact absurd he (by simp)
    · rw [hlk] at hl0
      injection hl0 with hl0e
      subst hl0e
      refine ⟨{ l with tasks := l.tasks ++ [(lab, ⟨lab, "pending", now, now⟩)] }, ?_, ?_⟩
      · rw [hsnd, lookup_updKey, hlk]
        rfl
      · show lookup (l.tasks ++ [(lab, ⟨lab, "pending", now, now⟩)]) lab =
          some ⟨lab, "pending", now, now⟩
        rw [lookup_append_none hnone]
        simp [lookup]
  · intro st sid desc status newId now hs hd
    refine ⟨?_, ?_, ?_⟩
    · simp [IdKeyed.add_task, hs, hd]
    · intro ht
      simp [IdKeyed.statusOrDefault, ht]
    · intro v hv
      simp [IdKeyed.statusOrDefault, truthy, hv]

/-- Witness for C2: adding label `b` to an owned empty list yields and stores
a pending task with both timestamps `t1`. -/
theorem C2_add_task_initial_status_witness :
    (LabelKeyed.add_task [("L", ⟨"L", "abc", [], "t0"⟩)] "abc" "L" "b" "t1").1 =
      .ok (.task ⟨"b", "pending", "t1", "t1"⟩) ∧
    ∃ l2, lookup (LabelKeyed.add_task [("L", ⟨"L", "abc", [], "t0"⟩)]
        "abc" "L" "b" "t1").2 "L" = some l2 ∧
      lookup l2.tasks "b" = some ⟨"b", "pending", "t1", "t1"⟩ :=
  C2_add_task_initial_status.1 [("L", ⟨"L", "abc", [], "t0"⟩)] "abc" "L" "b" "t1"
    ⟨"L", "abc", [], "t0"⟩ (by decide) (by decide) (by decide) rfl rfl rfl

theorem lookup_same_store_task_eq {st : LabelKeyed.Store} {lid lab : String}
    {l l2 : LabelKeyed.TaskList} {t t2 : LabelKeyed.Task}
    (h1 : lookup st lid = some l) (h2 : lookup l.tasks lab = some t)
    (h3 : lookup st lid = some l2) (h4 : lookup l2.tasks lab = some t2) :
    t2 = t := by
  rw [h1] at h3
  injection h3 with h3
  subst h3
  rw [h2] at h4
  injection h4 with h4
  exact h4.symm

/-- C3 counterexample: in the id-keyed variant, `update_task` writes any
truthy `status` string, so a task that reached `"completed"` (a reachable
state, built here by `add_task` then `update_task`) transitions back to
`"pending"`. -/
theorem C3_counterexample :
    lookup (IdKeyed.update_task
        (IdKeyed.add_task [] "abc" "write code" none "T1" "t0").2
        "abc" "T1" none (some "completed") "t1").2 "abc" =
      some [⟨"T1", "write code", "completed", "t0", "t1"⟩] ∧
    (IdKeyed.update_task
        (IdKeyed.update_task (IdKeyed.add_task [] "abc" "write code" none "T1" "t0").2
          "abc" "T1" none (some "completed") "t1").2
        "abc" "T1" none (some "pending") "t2").1 =
      Except.ok (IdKeyed.Resp.task ⟨"T1", "write code", "pending", "t0", "t2"⟩) ∧
    ("pending" : String) ≠ "completed" := by
  refine ⟨rfl, rfl, by decide⟩

/-- C3 (amended): in the label-keyed variant no operation ever moves an
existing task's status away from what it was except to `"completed"` — in
particular `completed -> pending` is impossible there; the id-keyed
`update_task`, however, sets the status to any truthy string supplied, so the
restriction does not hold for that variant. -/
theorem C3_no_completed_revert :
    ∀ (st : LabelKeyed.Store) (sessionId : String) (r : LabelKeyed.Req)
      (now lid lab : String) (l l2 : LabelKeyed.TaskList) (t t2 : LabelKeyed.Task),
      lookup st lid = some l → lookup l.tasks lab = some t →
      lookup (LabelKeyed.step st sessionId r now).2 lid = some l2 →
      lookup l2.tasks lab = some t2 →
      t2.status = t.status ∨ t2.status = "completed" := by
  intro st sid r now lid lab l l2 t t2 h1 h2 h3 h4
  cases r with
  | create nid =>
    simp only [LabelKeyed.step] at h3
    rcases LabelKeyed.create_task_list_cases st sid nid now with ⟨hsnd, _⟩ | ⟨_, hsnd⟩
    · rw [hsnd] at h3
      exact Or.inl (by rw [lookup_same_store_task_eq h1 h2 h3 h4])
    · rw [hsnd] at h3
      by_cases hk : lid = nid
      · subst hk
        rw [lookup_setKey_self] at h3
        injection h3 with h3
        subst h3
        simp [lookup] at h4
      · rw [lookup_setKey_ne st nid lid _ hk] at h3
        exact Or.inl (by rw [lookup_same_store_task_eq h1 h2 h3 h4])
  | add lid0 lab0 =>
    simp only [LabelKeyed.step] at h3
    rcases LabelKeyed.add_task_cases st sid lid0 lab0 now with
      ⟨hsnd, _⟩ | ⟨l0, hl0, hn0, _, hsnd⟩
    · rw [hsnd] at h3
      exact Or.inl (by rw [lookup_same_store_task_eq h1 h2 h3 h4])
    · rw [hsnd] at h3
      by_cases hk : lid = lid0
      · subst hk
        rw [lookup_updKey, hl0] at h3
        simp only [Option.map_some'] at h3
        injection h3 with h3
        rw [h1] at hl0
        injection hl0 with hl0
        subst hl0
        subst h3
        dsimp only at h4
        rw [lookup_append_some h2] at h4
        injection h4 with h4
        subst h4
        exact Or.inl rfl
      · rw [lookup_updKey_ne _ _ _ _ hk] at h3
        exact Or.inl (by rw [lookup_same_store_task_eq h1 h2 h3 h4])
  | complete lid0 lab0 =>
    simp only [LabelKeyed.step] at h3
    rcases LabelKeyed.complete_task_cases st sid lid0 lab0 now with
      ⟨hsnd, _⟩ | ⟨l0, t0, hl0, ht0, _, hsnd⟩
    · rw [hsnd] at h3
      exact Or.inl (by rw [lookup_same_store_task_eq h1 h2 h3 h4])
    · rw [hsnd] at h3
      by_cases hk : lid = lid0
      · subst hk
        rw [lookup_updKey, hl0] at h3
        simp only [Option.map_some'] at h3
        injection h3 with h3
        rw [h1] at hl0
        injection hl0 with hl0
        subst hl0
        subst h3
        dsimp only at h4
        by_cases hlab : lab = lab0
        · subst hlab
          rw [lookup_setKey_self] at h4
          injection h4 with h4
          subst h4
          exact Or.inr rfl
        · rw [lookup_setKey_ne _ _ _ _ hlab, h2] at h4
          injection h4 with h4
          subst h4
          exact Or.inl rfl
      · rw [lookup_updKey_ne _ _ _ _ hk] at h3
        exact Or.inl (by rw [lookup_same_store_task_eq h1 h2 h3 h4])
  | del lid0 lab0 =>
    simp only [LabelKeyed.step] at h3
    rcases LabelKeyed.delete_task_cases st sid lid0 lab0 with ⟨hsnd, _⟩ | ⟨_, hsnd⟩
    · rw [hsnd] at h3
      exact Or.inl (by rw [lookup_same_store_task_eq h1 h2 h3 h4])
    · rw [hsnd] at h3
      by_cases hk : lid = lid0
      · subst hk
        rw [lookup_updKey, h1] at h3
        simp only [Option.map_some'] at h3
        injection h3 with h3
        subst h3
        dsimp only at h4
        by_cases hlab : lab = lab0
        · subst hlab
          rw [lookup_delKey_self] at h4
          exact absurd h4 (by simp)
        · rw [lookup_delKey_ne _ _ _ hlab, h2] at h4
          injection h4 with h4
          subst h4
          exact Or.inl rfl
      · rw [lookup_updKey_ne _ _ _ _ hk] at h3
        exact Or.inl (by rw [lookup_same_store_task_eq h1 h2 h3 h4])
  | list lid0 =>
    simp only [LabelKeyed.step] at h3
    rw [LabelKeyed.list_tasks_snd] at h3
    exact Or.inl (by rw [lookup_same_store_task_eq h1 h2 h3 h4])
  | checkAll lid0 =>
    simp only [LabelKeyed.step] at h3
    rw [LabelKeyed.check_all_tasks_complete_snd] at h3
    exact Or.inl (by rw [lookup_same_store_task_eq h1 h2 h3 h4])

/-- Witness for C3 at a concrete input: a completed task survives a
`check_all_tasks_complete` step with status `"completed"`. -/
theorem C3_no_completed_revert_witness :
    (⟨"a", "completed", "t0", "t0"⟩ : LabelKeyed.Task).status =
      (⟨"a", "completed", "t0", "t0"⟩ : LabelKeyed.Task).status ∨
    (⟨"a", "completed", "t0", "t0"⟩ : LabelKeyed.Task).status = "completed" :=
  C3_no_completed_revert
    [("L", ⟨"L", "abc", [("a", ⟨"a", "completed", "t0", "t0"⟩)], "t0"⟩)] "abc"
    (.checkAll "L") "t1" "L" "a"
    ⟨"L", "abc", [("a", ⟨"a", "completed", "t0", "t0"⟩)], "t0"⟩
    ⟨"L", "abc", [("a", ⟨"a", "completed", "t0", "t0"⟩)], "t0"⟩
    ⟨"a", "completed", "t0", "t0"⟩ ⟨"a", "completed", "t0", "t0"⟩
    rfl rfl (by decide) rfl

theorem isEmpty_eq_true_iff (l : List α) : l.isEmpty = true ↔ l = [] := by
  cases l <;> simp

/-- C5 counterexample: on an owned empty list, `check_all_tasks_complete`
answers the bare boolean `true` — not the structured
`{allComplete, remaining}` record the claim describes. -/
theorem C5_counterexample :
    (LabelKeyed.check_all_tasks_complete [("L", ⟨"L", "abc", [], "t0"⟩)]
        "abc" "L").1.map LabelKeyed.Resp.isCheckRecord = Except.ok false ∧
    (LabelKeyed.check_all_tasks_complete [("L", ⟨"L", "abc", [], "t0"⟩)]
        "abc" "L").1.map LabelKeyed.Resp.isBool = Except.ok true := by
  refine ⟨rfl, rfl⟩

/-- C5 (amended): `check_all_tasks_complete` returns a bare boolean, equal to
the `allComplete` field of the spec's structured record — true iff every task
of the resolved list has status `"completed"`, and vacuously true on an empty
task set; the `remaining` sequence (the identities of the non-completed tasks
in insertion order, empty iff `allComplete`) is not computed or returned. -/
theorem C5_check_all_bare_boolean :
    ∀ (st : LabelKeyed.Store) (sessionId taskListId : String) (l : LabelKeyed.TaskList),
      sessionId ≠ "" → taskListId ≠ "" →
      lookup st taskListId = some l → l.sessionId = sessionId →
      LabelKeyed.check_all_tasks_complete st sessionId taskListId =
        (.ok (.bool (checkAllCompleteSpec l).allComplete), st) ∧
      ((checkAllCompleteSpec l).allComplete = true ↔
        (checkAllCompleteSpec l).remaining = []) ∧
      (checkAllCompleteSpec l).remaining =
        (l.tasks.filter (fun p => !(p.2.status == "completed"))).map Prod.fst ∧
      (l.tasks = [] →
        LabelKeyed.check_all_tasks_complete st sessionId taskListId =
          (.ok (.bool true), st)) := by
  intro st sid lid l hs hlid hlk hsess
  have hbool : (objectValues l.tasks).all (fun t => t.status == "completed") =
      (checkAllCompleteSpec l).allComplete := by
    rw [perm_all (objectValues_perm l.tasks), all_map_snd_eq_filter_isEmpty]
    simp [checkAllCompleteSpec, isEmpty_map]
  have h1 : LabelKeyed.check_all_tasks_complete st sid lid =
      (.ok (.bool ((objectValues l.tasks).all (fun t => t.status == "completed"))), st) := by
    simp [LabelKeyed.check_all_tasks_complete, hs, hlid, hlk, hsess]
  refine ⟨by rw [h1, hbool], ?_, rfl, ?_⟩
  · simp only [checkAllCompleteSpec]
    rw [isEmpty_eq_true_iff]
  · intro he
    rw [h1, he]
    simp [objectValues, sortIdx]

/-- Witness for C5: on a list with one completed and one pending task, the
handler answers exactly the boolean the spec record's `allComplete` holds. -/
theorem C5_check_all_bare_boolean_witness :
    LabelKeyed.check_all_tasks_complete
      [("L", ⟨"L", "abc", [("a", ⟨"a", "completed", "t0", "t0"⟩),
        ("b", ⟨"b", "pending", "t0", "t0"⟩)], "t0"⟩)] "abc" "L" =
      (.ok (.bool (checkAllCompleteSpec
        ⟨"L", "abc", [("a", ⟨"a", "completed", "t0", "t0"⟩),
          ("b", ⟨"b", "pending", "t0", "t0"⟩)], "t0"⟩).allComplete),
       [("L", ⟨"L", "abc", [("a", ⟨"a", "completed", "t0", "t0"⟩),
        ("b", ⟨"b", "pending", "t0", "t0"⟩)], "t0"⟩)]) :=
  (C5_check_all_bare_boolean
    [("L", ⟨"L", "abc", [("a", ⟨"a", "completed", "t0", "t0"⟩),
      ("b", ⟨"b", "pending", "t0", "t0"⟩)], "t0"⟩)] "abc" "L"
    ⟨"L", "abc", [("a", ⟨"a", "completed", "t0", "t0"⟩),
      ("b", ⟨"b", "pending", "t0", "t0"⟩)], "t0"⟩
    (by decide) (by decide) rfl rfl).1

/-- C9 counterexample: with labels `"10"` then `"2"` added in that order,
`Object.values` enumerates the array-index keys in ascending numeric order,
so `list_tasks` returns the tasks in the opposite of insertion order. -/
theorem C9_counterexample :
    (LabelKeyed.list_tasks
        [("L", ⟨"L", "abc", [("10", ⟨"10", "pending", "t1", "t1"⟩),
          ("2", ⟨"2", "pending", "t2", "t2"⟩)], "t0"⟩)] "abc" "L").1 =
      Except.ok (LabelKeyed.Resp.tasks
        [⟨"2", "pending", "t2", "t2"⟩, ⟨"10", "pending", "t1", "t1"⟩]) ∧
    (lookup ([("L", ⟨"L", "abc", [("10", ⟨"10", "pending", "t1", "t1"⟩),
        ("2", ⟨"2", "pending", "t2", "t2"⟩)], "t0"⟩)] : LabelKeyed.Store) "L").map
        (fun l => l.tasks.map Prod.snd) =
      some [⟨"10", "pending", "t1", "t1"⟩, ⟨"2", "pending", "t2", "t2"⟩] ∧
    ([⟨"2", "pending", "t2", "t2"⟩, ⟨"10", "pending", "t1", "t1"⟩] :
        List LabelKeyed.Task) ≠
      [⟨"10", "pending", "t1", "t1"⟩, ⟨"2", "pending", "t2", "t2"⟩] := by
  refine ⟨by decide, rfl, by decide⟩

/-- C9 (amended): `list_tasks` on a resolved list never fails and returns
every task (a permutation of the insertion-order sequence); the sequence is in
insertion order whenever no label is a canonical array-index string — and
always in the id-keyed variant, whose store is an array — but array-index
labels are enumerated first in ascending numeric order. -/
theorem C9_list_tasks_order :
    (∀ (st : LabelKeyed.Store) (sessionId taskListId : String) (l : LabelKeyed.TaskList),
      sessionId ≠ "" → taskListId ≠ "" →
      lookup st taskListId = some l → l.sessionId = sessionId →
      LabelKeyed.list_tasks st sessionId taskListId =
        (.ok (.tasks (objectValues l.tasks)), st) ∧
      (objectValues l.tasks).Perm (l.tasks.map Prod.snd) ∧
      ((∀ p ∈ l.tasks, isArrayIndex p.1 = false) →
        objectValues l.tasks = l.tasks.map Prod.snd) ∧
      (l.tasks = [] →
        LabelKeyed.list_tasks st sessionId taskListId = (.ok (.tasks []), st))) ∧
    (∀ (st : IdKeyed.Store) (sessionId : String), sessionId ≠ "" →
      IdKeyed.list_tasks st sessionId =
        (.ok (.tasks ((lookup st sessionId).getD [])), st) ∧
      (lookup st sessionId = none →
        IdKeyed.list_tasks st sessionId = (.ok (.tasks []), st))) := by
  constructor
  · intro st sid lid l hs hlid hlk hsess
    have h1 : LabelKeyed.list_tasks st sid lid =
        (.ok (.tasks (objectValues l.tasks)), st) := by
      simp [LabelKeyed.list_tasks, hs, hlid, hlk, hsess]
    refine ⟨h1, objectValues_perm _, objectValues_of_no_index, ?_⟩
    intro he
    rw [h1, he]
    simp [objectValues, sortIdx]
  · intro st sid hs
    refine ⟨by simp [IdKeyed.list_tasks, hs], ?_⟩
    intro hn
    simp [IdKeyed.list_tasks, hs, hn]

/-- Witness for C9: listing an owned list with one non-numeric label returns
exactly that task, in insertion order. -/
theorem C9_list_tasks_order_witness :
    LabelKeyed.list_tasks [("L", ⟨"L", "abc", [("a", ⟨"a", "pending", "t1", "t1"⟩)], "t0"⟩)]
        "abc" "L" =
      (.ok (.tasks (objectValues [("a", ⟨"a", "pending", "t1", "t1"⟩)])),
       [("L", ⟨"L", "abc", [("a", ⟨"a", "pending", "t1", "t1"⟩)], "t0"⟩)]) ∧
    objectValues [("a", (⟨"a", "pending", "t1", "t1"⟩ : LabelKeyed.Task))] =
      [⟨"a", "pending", "t1", "t1"⟩] :=
  ⟨(C9_list_tasks_order.1 [("L", ⟨"L", "abc", [("a", ⟨"a", "pending", "t1", "t1"⟩)], "t0"⟩)]
      "abc" "L" ⟨"L", "abc", [("a", ⟨"a", "pending", "t1", "t1"⟩)], "t0"⟩
      (by decide) (by decide) rfl rfl).1,
   (C9_list_tasks_order.1 [("L", ⟨"L", "abc", [("a", ⟨"a", "pending", "t1", "t1"⟩)], "t0"⟩)]
      "abc" "L" ⟨"L", "abc", [("a", ⟨"a", "pending", "t1", "t1"⟩)], "t0"⟩
      (by decide) (by decide) rfl rfl).2.2.1 (by decide)⟩

/-- C6: `complete_task` on an identity not present in the resolved list fails
with `NotFound`; on an existing task it sets the status to `"completed"`,
refreshes the task's `updatedAt`, stores the updated task and returns it; it
is idempotent: re-applying it to the resulting state (at the same timestamp)
succeeds with the same response and is a no-op write on the store. -/
theorem C6_complete_task :
    ∀ (st : LabelKeyed.Store) (sessionId taskListId label now : String)
      (l : LabelKeyed.TaskList),
      sessionId ≠ "" → taskListId ≠ "" → label ≠ "" →
      lookup st taskListId = some l → l.sessionId = sessionId →
      ((lookup l.tasks label = none →
        LabelKeyed.complete_task st sessionId taskListId label now =
          (.error (.notFound ("Task not found: \"" ++ label ++ "\"")), st)) ∧
      (∀ t, lookup l.tasks label = some t →
        (LabelKeyed.complete_task st sessionId taskListId label now).1 =
          .ok (.task ⟨t.label, "completed", t.createdAt, now⟩) ∧
        (∃ l2, lookup (LabelKeyed.complete_task st sessionId taskListId label now).2
            taskListId = some l2 ∧
          lookup l2.tasks label = some ⟨t.label, "completed", t.createdAt, now⟩) ∧
        LabelKeyed.complete_task
            (LabelKeyed.complete_task st sessionId taskListId label now).2
            sessionId taskListId label now =
          ((LabelKeyed.complete_task st sessionId taskListId label now).1,
           (LabelKeyed.complete_task st sessionId taskListId label now).2))) := by
  intro st sid lid lab now l hs hlid hlab hlk hsess
  constructor
  · intro hnone
    simp [LabelKeyed.complete_task, hs, hlid, hlab, hlk, hsess, hnone]
  · intro t ht
    have h1 : LabelKeyed.complete_task st sid lid lab now =
        (.ok (.task ⟨t.label, "completed", t.createdAt, now⟩),
         updKey
           (fun l2 =>
             { l2 with
               tasks := setKey l2.tasks lab ⟨t.label, "completed", t.createdAt, now⟩ })
           st lid) := by
      simp [LabelKeyed.complete_task, hs, hlid, hlab, hlk, hsess, ht]
    have hlk1 : lookup (LabelKeyed.complete_task st sid lid lab now).2 lid =
        some
          { l with
            tasks := setKey l.tasks lab ⟨t.label, "completed", t.createdAt, now⟩ } := by
      rw [h1, lookup_updKey, hlk]
      rfl
    refine ⟨by rw [h1], ⟨_, hlk1, ?_⟩, ?_⟩
    · exact lookup_setKey_self _ _ _
    · have ht1 : lookup
          (({ l with
              tasks := setKey l.tasks lab ⟨t.label, "completed", t.createdAt, now⟩ } :
            LabelKeyed.TaskList)).tasks lab =
          some ⟨t.label, "completed", t.createdAt, now⟩ :=
        lookup_setKey_self _ _ _
      have h2 : ∀ st1 : LabelKeyed.Store,
          lookup st1 lid =
            some
              ({ l with
                 tasks := setKey l.tasks lab ⟨t.label, "completed", t.createdAt, now⟩ }) →
          LabelKeyed.complete_task st1 sid lid lab now =
            (.ok (.task ⟨t.label, "completed", t.createdAt, now⟩),
             updKey
               (fun l2 =>
                 { l2 with
                   tasks := setKey l2.tasks lab ⟨t.label, "completed", t.createdAt, now⟩ })
               st1 lid) := by
        intro st1 hlkx
        simp [LabelKeyed.complete_task, hs, hlid, hlab, hlkx, hsess, ht1,
          lookup_setKey_self]
      rw [h2 (LabelKeyed.complete_task st sid lid lab now).2 hlk1, h1]
      simp only [Prod.mk.injEq, true_and]
      rw [updKey_updKey]
      apply updKey_congr
      intro a
      simp only
      rw [setKey_setKey]

/-- Witness for C6: completing an existing pending task in an owned list at
time `t1`. -/
theorem C6_complete_task_witness :
    (LabelKeyed.complete_task
        [("L", ⟨"L", "abc", [("a", ⟨"a", "pending", "t0", "t0"⟩)], "t0"⟩)]
        "abc" "L" "a" "t1").1 =
      .ok (.task ⟨"a", "completed", "t0", "t1"⟩) ∧
    (∃ l2, lookup (LabelKeyed.complete_task
          [("L", ⟨"L", "abc", [("a", ⟨"a", "pending", "t0", "t0"⟩)], "t0"⟩)]
          "abc" "L" "a" "t1").2 "L" = some l2 ∧
      lookup l2.tasks "a" = some ⟨"a", "completed", "t0", "t1"⟩) ∧
    LabelKeyed.complete_task
        (LabelKeyed.complete_task
          [("L", ⟨"L", "abc", [("a", ⟨"a", "pending", "t0", "t0"⟩)], "t0"⟩)]
          "abc" "L" "a" "t1").2 "abc" "L" "a" "t1" =
      ((LabelKeyed.complete_task
          [("L", ⟨"L", "abc", [("a", ⟨"a", "pending", "t0", "t0"⟩)], "t0"⟩)]
          "abc" "L" "a" "t1").1,
       (LabelKeyed.complete_task
          [("L", ⟨"L", "abc", [("a", ⟨"a", "pending", "t0", "t0"⟩)], "t0"⟩)]
          "abc" "L" "a" "t1").2) :=
  (C6_complete_task [("L", ⟨"L", "abc", [("a", ⟨"a", "pending", "t0", "t0"⟩)], "t0"⟩)]
      "abc" "L" "a" "t1" ⟨"L", "abc", [("a", ⟨"a", "pending", "t0", "t0"⟩)], "t0"⟩
      (by decide) (by decide) (by decide) rfl rfl).2
    ⟨"a", "pending", "t0", "t0"⟩ rfl

/-- C7: in both variants `delete_task` on an identity not present in the
resolved list fails with `NotFound`; otherwise it removes the entry — a
subsequent `list_tasks` no longer contains it and a repeated `delete_task` on
the same identity fails with `NotFound` — and returns the confirmation record
`{success: true, deletedLabel/deletedId}`. -/
theorem C7_delete_task :
    (∀ (st : LabelKeyed.Store) (sessionId taskListId label : String)
        (l : LabelKeyed.TaskList),
      sessionId ≠ "" → taskListId ≠ "" → label ≠ "" →
      lookup st taskListId = some l → l.sessionId = sessionId →
      ((lookup l.tasks label = none →
        LabelKeyed.delete_task st sessionId taskListId label =
          (.error (.notFound ("Task not found: \"" ++ label ++ "\"")), st)) ∧
      ((lookup l.tasks label).isSome →
        (LabelKeyed.delete_task st sessionId taskListId label).1 =
          .ok (.deleted true label) ∧
        (∃ l2, lookup (LabelKeyed.delete_task st sessionId taskListId label).2
            taskListId = some l2 ∧
          lookup l2.tasks label = none ∧
          ((∀ p ∈ l.tasks, p.2.label = p.1) →
            (LabelKeyed.list_tasks (LabelKeyed.delete_task st sessionId taskListId label).2
                sessionId taskListId).1 = .ok (.tasks (objectValues l2.tasks)) ∧
            ∀ t ∈ objectValues l2.tasks, t.label ≠ label)) ∧
        LabelKeyed.delete_task (LabelKeyed.delete_task st sessionId taskListId label).2
            sessionId taskListId label =
          (.error (.notFound ("Task not found: \"" ++ label ++ "\"")),
           (LabelKeyed.delete_task st sessionId taskListId label).2)))) ∧
    (∀ (st : IdKeyed.Store) (sessionId taskId : String) (tasks : List IdKeyed.Task),
      sessionId ≠ "" → taskId ≠ "" → lookup st sessionId = some tasks →
      (((∀ t ∈ tasks, (t.id == taskId) = false) →
        IdKeyed.delete_task st sessionId taskId =
          (.error (.notFound ("Task not found: " ++ taskId)), st)) ∧
      (∀ t, t ∈ tasks → t.id = taskId →
        (IdKeyed.delete_task st sessionId taskId).1 = .ok (.deleted true taskId) ∧
        lookup (IdKeyed.delete_task st sessionId taskId).2 sessionId =
          some (tasks.filter (fun x => !(x.id == taskId))) ∧
        (∀ x ∈ tasks.filter (fun x => !(x.id == taskId)), x.id ≠ taskId) ∧
        (IdKeyed.list_tasks (IdKeyed.delete_task st sessionId taskId).2 sessionId).1 =
          .ok (.tasks (tasks.filter (fun x => !(x.id == taskId)))) ∧
        IdKeyed.delete_task (IdKeyed.delete_task st sessionId taskId).2 sessionId taskId =
          (.error (.notFound ("Task not found: " ++ taskId)),
           (IdKeyed.delete_task st sessionId taskId).2)))) := by
  constructor
  · intro st sid lid lab l hs hlid hlab hlk hsess
    constructor
    · intro hnone
      simp [LabelKeyed.delete_task, hs, hlid, hlab, hlk, hsess, hnone]
    · intro hsome
      have h1 : LabelKeyed.delete_task st sid lid lab =
          (.ok (.deleted true lab),
           updKey (fun l2 => { l2 with tasks := delKey l2.tasks lab }) st lid) := by
        simp [LabelKeyed.delete_task, hs, hlid, hlab, hlk, hsess, hsome]
      have hlk1 : lookup (LabelKeyed.delete_task st sid lid lab).2 lid =
          some ({ l with tasks := delKey l.tasks lab }) := by
        rw [h1, lookup_updKey, hlk]
        rfl
      refine ⟨by rw [h1], ⟨{ l with tasks := delKey l.tasks lab }, hlk1, ?_, ?_⟩, ?_⟩
      · exact lookup_delKey_self _ _
      · intro hcoh
        constructor
        · simp [LabelKeyed.list_tasks, hs, hlid, hlk1, hsess]
        · intro tx htx
          have hmem := mem_objectValues.mp htx
          obtain ⟨p, hp, hpe⟩ := List.mem_map.mp hmem
          have hdel := mem_delKey hp
          have hl2 := hcoh p hdel.1
          rw [← hpe, hl2]
          exact hdel.2
      · have hnone1 : lookup (({ l with tasks := delKey l.tasks lab }) :
            LabelKeyed.TaskList).tasks lab = none := lookup_delKey_self _ _
        have h2 : ∀ st1 : LabelKeyed.Store,
            lookup st1 lid = some ({ l with tasks := delKey l.tasks lab }) →
            LabelKeyed.delete_task st1 sid lid lab =
              (.error (.notFound ("Task not found: \"" ++ lab ++ "\"")), st1) := by
          intro st1 hlkx
          simp [LabelKeyed.delete_task, hs, hlid, hlab, hlkx, hsess, lookup_delKey_self]
        rw [h2 (LabelKeyed.delete_task st sid lid lab).2 hlk1]
  · intro st sid tid tasks hs htid hlk
    constructor
    · intro hall
      have hfil : tasks.filter (fun x => !(x.id == tid)) = tasks := by
        rw [List.filter_eq_self]
        intro a ha
        simp [hall a ha]
      have h1 : IdKeyed.delete_task st sid tid =
          (.error (.notFound ("Task not found: " ++ tid)),
           setKey st sid (tasks.filter (fun x => !(x.id == tid)))) := by
        simp [IdKeyed.delete_task, hs, htid, hlk, hfil]
      rw [h1, hfil, setKey_of_lookup hlk]
    · intro t htmem htid2
      have hlen : (tasks.filter (fun x => !(x.id == tid))).length ≠ tasks.length := by
        intro hcontra
        have hfil := filter_of_length_eq hcontra
        have hmem2 : t ∈ tasks.filter (fun x => !(x.id == tid)) := by
          rw [hfil]
          exact htmem
        have := (List.mem_filter.mp hmem2).2
        simp [htid2] at this
      have h1 : IdKeyed.delete_task st sid tid =
          (.ok (.deleted true tid),
           setKey st sid (tasks.filter (fun x => !(x.id == tid)))) := by
        simp [IdKeyed.delete_task, hs, htid, hlk, hlen]
      have hlk1 : lookup (IdKeyed.delete_task st sid tid).2 sid =
          some (tasks.filter (fun x => !(x.id == tid))) := by
        rw [h1]
        exact lookup_setKey_self _ _ _
      refine ⟨by rw [h1], hlk1, ?_, ?_, ?_⟩
      · intro x hx
        have := (List.mem_filter.mp hx).2
        simpa using this
      · simp [IdKeyed.list_tasks, hs, hlk1]
      · have hfil2 : (tasks.filter (fun x => !(x.id == tid))).filter
            (fun x => !(x.id == tid)) = tasks.filter (fun x => !(x.id == tid)) := by
          rw [List.filter_eq_self]
          intro a ha
          exact (List.mem_filter.mp ha).2
        have h2 : ∀ st1 : IdKeyed.Store,
            lookup st1 sid = some (tasks.filter (fun x => !(x.id == tid))) →
            IdKeyed.delete_task st1 sid tid =
              (.error (.notFound ("Task not found: " ++ tid)),
               setKey st1 sid (tasks.filter (fun x => !(x.id == tid)))) := by
          intro st1 hlkx
          simp [IdKeyed.delete_task, hs, htid, hlkx, hfil2]
        rw [h2 (IdKeyed.delete_task st sid tid).2 hlk1, setKey_of_lookup hlk1]

/-- Witness for C7 (label-keyed part): deleting the only task of an owned
list answers the confirmation record. -/
theorem C7_delete_task_witness :
    (LabelKeyed.delete_task
        [("L", ⟨"L", "abc", [("a", ⟨"a", "pending", "t0", "t0"⟩)], "t0"⟩)]
        "abc" "L" "a").1 = .ok (.deleted true "a") :=
  ((C7_delete_task.1 [("L", ⟨"L", "abc", [("a", ⟨"a", "pending", "t0", "t0"⟩)], "t0"⟩)]
      "abc" "L" "a" ⟨"L", "abc", [("a", ⟨"a", "pending", "t0", "t0"⟩)], "t0"⟩
      (by decide) (by decide) (by decide) rfl rfl).2 (by decide)).1

/-- C8: `update_task` applies only the fields present in the request — for
every task, `applyFields` never changes `id` or `createdAt`, keeps
`description` and `status` when the corresponding argument is omitted, and
refreshes `updatedAt`; the handler fails with `NotFound` when the session has
no tasks or no task carries the given `taskId`, and otherwise returns the
updated task and stores it in place. -/
theorem C8_update_task_frame :
    (∀ (d s : Option String) (now : String) (t : IdKeyed.Task),
      (IdKeyed.applyFields d s now t).id = t.id ∧
      (IdKeyed.applyFields d s now t).createdAt = t.createdAt ∧
      (IdKeyed.applyFields d s now t).updatedAt = now ∧
      (d = none → (IdKeyed.applyFields d s now t).description = t.description) ∧
      (s = none → (IdKeyed.applyFields d s now t).status = t.status)) ∧
    (∀ (st : IdKeyed.Store) (sessionId taskId : String) (d s : Option String)
        (now : String),
      sessionId ≠ "" → taskId ≠ "" →
      ((lookup st sessionId = none →
        IdKeyed.update_task st sessionId taskId d s now =
          (.error (.notFound "No tasks found for this session."), st)) ∧
      (∀ tasks, lookup st sessionId = some tasks →
        ((∀ t2 ∈ tasks, (t2.id == taskId) = false) →
          IdKeyed.update_task st sessionId taskId d s now =
            (.error (.notFound ("Task not found: " ++ taskId)), st)) ∧
        (∀ pre t2 post, tasks = pre ++ t2 :: post →
          (∀ x ∈ pre, (x.id == taskId) = false) → t2.id = taskId →
          (IdKeyed.update_task st sessionId taskId d s now).1 =
            .ok (.task (IdKeyed.applyFields d s now t2)) ∧
          lookup (IdKeyed.update_task st sessionId taskId d s now).2 sessionId =
            some (pre ++ IdKeyed.applyFields d s now t2 :: post))))) := by
  constructor
  · intro d s now t
    refine ⟨?_, ?_, ?_, ?_, ?_⟩
    · by_cases hd : truthy d <;> by_cases hs2 : truthy s <;>
        simp [IdKeyed.applyFields, hd, hs2]
    · by_cases hd : truthy d <;> by_cases hs2 : truthy s <;>
        simp [IdKeyed.applyFields, hd, hs2]
    · by_cases hd : truthy d <;> by_cases hs2 : truthy s <;>
        simp [IdKeyed.applyFields, hd, hs2]
    · intro hd
      subst hd
      cases s with
      | none => simp [IdKeyed.applyFields, truthy]
      | some v => by_cases hv : v = "" <;> simp [IdKeyed.applyFields, truthy, hv]
    · intro hs2
      subst hs2
      cases d with
      | none => simp [IdKeyed.applyFields, truthy]
      | some v => by_cases hv : v = "" <;> simp [IdKeyed.applyFields, truthy, hv]
  · intro st sid tid d s now hs htid
    constructor
    · intro hnone
      simp [IdKeyed.update_task, hs, htid, hnone]
    · intro tasks hlk
      constructor
      · intro hall
        have hupd : IdKeyed.updateFirst (fun t => t.id == tid)
            (IdKeyed.applyFields d s now) tasks = none := updateFirst_eq_none hall
        simp [IdKeyed.update_task, hs, htid, hlk, hupd]
      · intro pre t2 post htasks hpre htid2
        have hupd : IdKeyed.updateFirst (fun t => t.id == tid)
            (IdKeyed.applyFields d s now) tasks =
            some (IdKeyed.applyFields d s now t2,
              pre ++ IdKeyed.applyFields d s now t2 :: post) := by
          rw [htasks]
          exact updateFirst_append hpre (by simp [htid2])
        have h1 : IdKeyed.update_task st sid tid d s now =
            (.ok (.task (IdKeyed.applyFields d s now t2)),
             setKey st sid (pre ++ IdKeyed.applyFields d s now t2 :: post)) := by
          simp [IdKeyed.update_task, hs, htid, hlk, hupd]
        refine ⟨by rw [h1], ?_⟩
        rw [h1]
        exact lookup_setKey_self _ _ _

/-- Witness for C8: updating only the status of the sole task of a session
keeps its description and `createdAt`, refreshes `updatedAt`. -/
theorem C8_update_task_frame_witness :
    (IdKeyed.update_task [("abc", [⟨"T1", "write code", "pending", "t0", "t0"⟩])]
        "abc" "T1" none (some "completed") "t1").1 =
      .ok (.task (IdKeyed.applyFields none (some "completed") "t1"
        ⟨"T1", "write code", "pending", "t0", "t0"⟩)) ∧
    lookup (IdKeyed.update_task [("abc", [⟨"T1", "write code", "pending", "t0", "t0"⟩])]
        "abc" "T1" none (some "completed") "t1").2 "abc" =
      some ([] ++ IdKeyed.applyFields none (some "completed") "t1"
        ⟨"T1", "write code", "pending", "t0", "t0"⟩ :: []) :=
  ((C8_update_task_frame.2 [("abc", [⟨"T1", "write code", "pending", "t0", "t0"⟩])]
      "abc" "T1" none (some "completed") "t1" (by decide) (by decide)).2
    [⟨"T1", "write code", "pending", "t0", "t0"⟩] rfl).2
    [] ⟨"T1", "write code", "pending", "t0", "t0"⟩ [] rfl (by simp) rfl

/-- C10: after a successful label-keyed `delete_task`, adding a task with the
same label to the same list does not conflict — it succeeds and stores a
fresh task with status `"pending"` and both timestamps set to the new time. -/
theorem C10_delete_frees_label :
    ∀ (st : LabelKeyed.Store) (sessionId taskListId label now : String)
      (l : LabelKeyed.TaskList),
      sessionId ≠ "" → taskListId ≠ "" → label ≠ "" →
      lookup st taskListId = some l → l.sessionId = sessionId →
      (lookup l.tasks label).isSome →
      (LabelKeyed.add_task (LabelKeyed.delete_task st sessionId taskListId label).2
          sessionId taskListId label now).1 =
        .ok (.task ⟨label, "pending", now, now⟩) ∧
      ∃ l2, lookup (LabelKeyed.add_task
          (LabelKeyed.delete_task st sessionId taskListId label).2
          sessionId taskListId label now).2 taskListId = some l2 ∧
        lookup l2.tasks label = some ⟨label, "pending", now, now⟩ := by
  intro st sid lid lab now l hs hlid hlab hlk hsess hsome
  have h1 : LabelKeyed.delete_task st sid lid lab =
      (.ok (.deleted true lab),
       updKey (fun l2 => { l2 with tasks := delKey l2.tasks lab }) st lid) := by
    simp [LabelKeyed.delete_task, hs, hlid, hlab, hlk, hsess, hsome]
  have hlk1 : lookup (LabelKeyed.delete_task st sid lid lab).2 lid =
      some ({ l with tasks := delKey l.tasks lab }) := by
    rw [h1, lookup_updKey, hlk]
    rfl
  have hnone1 : lookup (({ l with tasks := delKey l.tasks lab }) :
      LabelKeyed.TaskList).tasks lab = none := lookup_delKey_self _ _
  have h2 : LabelKeyed.add_task (LabelKeyed.delete_task st sid lid lab).2
      sid lid lab now =
      (.ok (.task ⟨lab, "pending", now, now⟩),
       updKey
         (fun l2 =>
           { l2 with tasks := l2.tasks ++ [(lab, ⟨lab, "pending", now, now⟩)] })
         (LabelKeyed.delete_task st sid lid lab).2 lid) := by
    have hgen : ∀ st1 : LabelKeyed.Store,
        lookup st1 lid = some ({ l with tasks := delKey l.tasks lab }) →
        LabelKeyed.add_task st1 sid lid lab now =
          (.ok (.task ⟨lab, "pending", now, now⟩),
           updKey
             (fun l2 =>
               { l2 with tasks := l2.tasks ++ [(lab, ⟨lab, "pending", now, now⟩)] })
             st1 lid) := by
      intro st1 hlkx
      simp [LabelKeyed.add_task, hs, hlid, hlab, hlkx, hsess, hnone1,
        lookup_delKey_self]
    exact hgen _ hlk1
  refine ⟨by rw [h2], ?_⟩
  refine ⟨{ l with tasks := delKey l.tasks lab ++ [(lab, ⟨lab, "pending", now, now⟩)] },
    ?_, ?_⟩
  · rw [h2, lookup_updKey, hlk1]
    rfl
  · show lookup (delKey l.tasks lab ++ [(lab, ⟨lab, "pending", now, now⟩)]) lab =
      some ⟨lab, "pending", now, now⟩
    rw [lookup_append_none (lookup_delKey_self _ _)]
    simp [lookup]

/-- Witness for C10: delete then re-add of label `a` on an owned one-task
list succeeds with a fresh pending task. -/
theorem C10_delete_frees_label_witness :
    (LabelKeyed.add_task
        (LabelKeyed.delete_task
          [("L", ⟨"L", "abc", [("a", ⟨"a", "completed", "t0", "t0"⟩)], "t0"⟩)]
          "abc" "L" "a").2
        "abc" "L" "a" "t2").1 = .ok (.task ⟨"a", "pending", "t2", "t2"⟩) ∧
    ∃ l2, lookup (LabelKeyed.add_task
        (LabelKeyed.delete_task
          [("L", ⟨"L", "abc", [("a", ⟨"a", "completed", "t0", "t0"⟩)], "t0"⟩)]
          "abc" "L" "a").2
        "abc" "L" "a" "t2").2 "L" = some l2 ∧
      lookup l2.tasks "a" = some ⟨"a", "pending", "t2", "t2"⟩ :=
  C10_delete_frees_label
    [("L", ⟨"L", "abc", [("a", ⟨"a", "completed", "t0", "t0"⟩)], "t0"⟩)]
    "abc" "L" "a" "t2" ⟨"L", "abc", [("a", ⟨"a", "completed", "t0", "t0"⟩)], "t0"⟩
    (by decide) (by decide) (by decide) rfl rfl (by decide)

end TasksPlugin
